import Mathlib

/-!
Verification of the stalk watch-driven change-diffing engine.

The Go sources embedded here are `main.go` (package main: resourceCache,
watcher, diffObjects) and the diff package (Differ.PrintDiff,
Differ.preprocess, diffTitle).  External libraries (sigs.k8s.io/yaml,
encoding/json via k8s `json`, pmezard/go-difflib, shibukawa/cdiff) are
modelled by executable Lean functions at the level of their documented
contracts; repository code absent from the sources (pkg/maputil, the diff
package's Options) is modelled from the spec, as marked in doc comments.
-/

set_option maxRecDepth 100000

namespace Stalk

/-- Model of a generic JSON/YAML document (Go `interface{}` trees as produced
by `json.Unmarshal` into `map[string]interface{}`): scalars, ordered
sequences, and key/value maps.  Go maps are unordered; here a map is a field
list whose order is erased by `Doc.normalize` (the model of an
encode/decode round trip through Go maps, which sort keys on `Marshal`). -/
inductive Doc where
  | null
  | boolVal (b : Bool)
  | num (n : Int)
  | str (s : String)
  | arr (xs : List Doc)
  | obj (fs : List (String × Doc))

/-- Lexicographic order on character lists, by code point. -/
def chListLe : List Char → List Char → Bool
  | [], _ => true
  | _ :: _, [] => false
  | c :: cs, d :: ds =>
    if c.toNat < d.toNat then true
    else if d.toNat < c.toNat then false
    else chListLe cs ds

/-- Lexicographic order on strings, by code point (the byte-wise key order
of Go's `json.Marshal` on ASCII keys). -/
def strLe (a b : String) : Bool := chListLe a.data b.data

/-- Insert one field into a key-sorted field list (used to model the key
sorting that Go's `json.Marshal` performs on `map[string]interface{}`). -/
def insertField (f : String × Doc) : List (String × Doc) → List (String × Doc)
  | [] => [f]
  | g :: gs => if strLe f.1 g.1 then f :: g :: gs else g :: insertField f gs

/-- Sort a field list by key. -/
def sortFields (fs : List (String × Doc)) : List (String × Doc) :=
  fs.foldr insertField []

mutual
/-- Model of the JSON encode/decode round trip (`json.Marshal` followed by
`json.Unmarshal` into generic maps): map key order is canonicalized
(sorted) at every level, everything else is preserved. -/
def Doc.normalize : Doc → Doc
  | .obj fs => .obj (sortFields (normalizeFields fs))
  | .arr xs => .arr (normalizeList xs)
  | d => d

def normalizeFields : List (String × Doc) → List (String × Doc)
  | [] => []
  | (k, v) :: fs => (k, v.normalize) :: normalizeFields fs

def normalizeList : List Doc → List Doc
  | [] => []
  | x :: xs => x.normalize :: normalizeList xs
end

/-- Is this document rendered inline (on the same line as its key)? -/
def Doc.isInline : Doc → Bool
  | .null | .boolVal _ | .num _ | .str _ => true
  | .arr xs => xs.isEmpty
  | .obj fs => fs.isEmpty

/-- Inline rendering of scalar-like documents. -/
def Doc.inlineText : Doc → String
  | .null => "null"
  | .boolVal b => if b then "true" else "false"
  | .num n => toString n
  | .str s => s
  | .arr _ => "[]"
  | .obj _ => "\x7b\x7d"

/-- `n` spaces. -/
def spaces (n : Nat) : String := String.mk (List.replicate n ' ')

mutual
/-- Model of YAML block-style serialization (sigs.k8s.io/yaml): one line per
scalar field, nested maps/sequences indented by two spaces. -/
def serializeDoc (ind : Nat) : Doc → List String
  | .arr xs => serializeArr ind xs
  | .obj fs => serializeObj ind fs
  | d => [spaces ind ++ d.inlineText]

def serializeArr (ind : Nat) : List Doc → List String
  | [] => [spaces ind ++ "[]"]
  | x :: xs =>
    (if x.isInline then [spaces ind ++ "- " ++ x.inlineText]
     else (spaces ind ++ "-") :: serializeDoc (ind + 2) x) ++ serializeArrTail ind xs

def serializeArrTail (ind : Nat) : List Doc → List String
  | [] => []
  | x :: xs =>
    (if x.isInline then [spaces ind ++ "- " ++ x.inlineText]
     else (spaces ind ++ "-") :: serializeDoc (ind + 2) x) ++ serializeArrTail ind xs

def serializeObj (ind : Nat) : List (String × Doc) → List String
  | [] => [spaces ind ++ "\x7b\x7d"]
  | (k, v) :: fs =>
    (if v.isInline then [spaces ind ++ k ++ ": " ++ v.inlineText]
     else (spaces ind ++ k ++ ":") :: serializeDoc (ind + 2) v) ++ serializeObjTail ind fs

def serializeObjTail (ind : Nat) : List (String × Doc) → List String
  | [] => []
  | (k, v) :: fs =>
    (if v.isInline then [spaces ind ++ k ++ ": " ++ v.inlineText]
     else (spaces ind ++ k ++ ":") :: serializeDoc (ind + 2) v) ++ serializeObjTail ind fs
end

/-- Join lines, terminating each with a newline. -/
def unlines (ls : List String) : String :=
  ls.foldr (fun l acc => l ++ "\n" ++ acc) ""

/-- Model of `yaml.Marshal` / `yaml.JSONToYAML` on a document: the value goes
through a generic (map-based, hence key-sorted) representation and is then
serialized as block YAML. -/
def yamlMarshalDoc (d : Doc) : String :=
  unlines (serializeDoc 0 d.normalize)

/-- Model of `unstructured.Unstructured`: the well-known metadata accessed by
the program (`GetName`, `GetNamespace`, `SetManagedFields`,
`GetResourceVersion`, `GetGeneration`, `GroupVersionKind().Kind`) plus the
remaining top-level content fields. -/
structure Unstructured where
  kind : String
  name : String
  nspace : String
  resourceVersion : String
  generation : Int
  managedFields : Option Doc
  body : List (String × Doc)

/-- The full content tree of an `Unstructured`, as `json.Marshal`/
`yaml.Marshal` see it.  `managedFields = none` means the key is absent
(`SetManagedFields(nil)` removes it). -/
def toDoc (u : Unstructured) : Doc :=
  Doc.obj
    ([("kind", Doc.str u.kind),
      ("metadata", Doc.obj
        ([("name", Doc.str u.name)]
          ++ (if u.nspace = "" then [] else [("namespace", Doc.str u.nspace)])
          ++ (match u.managedFields with
              | none => []
              | some mf => [("managedFields", mf)])
          ++ [("resourceVersion", Doc.str u.resourceVersion),
              ("generation", Doc.num u.generation)]))]
      ++ u.body)

/-- `yaml.Marshal` of a possibly-nil `*unstructured.Unstructured`
(a nil pointer marshals as `null`). -/
def yamlMarshalOpt : Option Unstructured → String
  | none => "null\n"
  | some u => yamlMarshalDoc (toDoc u)

/-! ## Model of pmezard/go-difflib

`difflib.SplitLines` splits after every newline, keeping the newline on
each chunk and newline-terminating the final chunk.  `UnifiedDiff` carries
the two line sequences, the two file titles and the `Context` line count;
`GetUnifiedDiffString` renders a unified diff: nothing for equal inputs,
otherwise the two `---`/`+++` file headers followed by hunks of changes,
each surrounded by at most `Context` unchanged lines. -/

/-- Helper for `SplitLines`: split a character list after each newline. -/
def splitAfterNl : List Char → List Char → List (List Char)
  | [], acc => [acc.reverse]
  | c :: cs, acc =>
    if c = '\n' then (c :: acc).reverse :: splitAfterNl cs []
    else splitAfterNl cs (c :: acc)

/-- Append a newline to the final chunk. -/
def nlTerminateLast : List String → List String
  | [] => []
  | [l] => [l ++ "\n"]
  | l :: ls => l :: nlTerminateLast ls

/-- Model of `difflib.SplitLines`. -/
def SplitLines (s : String) : List String :=
  nlTerminateLast ((splitAfterNl s.data []).map String.mk)

/-- Model of `difflib.UnifiedDiff` (dates and custom EOL unused by stalk). -/
structure UnifiedDiff where
  A : List String
  B : List String
  FromFile : String
  ToFile : String
  Context : Nat

/-- One line of an edit script: kept, deleted, or inserted. -/
inductive Step where
  | keep (s : String)
  | del (s : String)
  | ins (s : String)

/-- Is this step a change (deletion or insertion)? -/
def Step.isChange : Step → Bool
  | .keep _ => false
  | _ => true

/-- Fuelled longest-common-subsequence worker (the fuel makes the recursion
structural; `lcs` supplies enough fuel for it never to run out). -/
def lcsF : Nat → List String → List String → List String
  | 0, _, _ => []
  | Nat.succ n, xs, ys =>
    match xs, ys with
    | [], _ => []
    | _, [] => []
    | a :: as', b :: bs' =>
      if a = b then a :: lcsF n as' bs'
      else
        let l1 := lcsF n (a :: as') bs'
        let l2 := lcsF n as' (b :: bs')
        if l2.length > l1.length then l2 else l1

/-- A longest common subsequence of two line sequences (the matching engine
behind the diff; on the simple inputs considered here it selects the same
matches as difflib's matcher). -/
def lcs (xs ys : List String) : List String :=
  lcsF (xs.length + ys.length) xs ys

/-- The elements of `xs` before the first occurrence of `c`. -/
def takeUntil (c : String) : List String → List String
  | [] => []
  | x :: xs => if x = c then [] else x :: takeUntil c xs

/-- The elements of `xs` after the first occurrence of `c`. -/
def dropUntil (c : String) : List String → List String
  | [] => []
  | x :: xs => if x = c then xs else dropUntil c xs

/-- Align two line sequences along a common subsequence, producing the edit
script. -/
def scriptAux (xs ys : List String) : List String → List Step
  | [] => xs.map Step.del ++ ys.map Step.ins
  | c :: cs =>
    (takeUntil c xs).map Step.del ++ (takeUntil c ys).map Step.ins
      ++ [Step.keep c] ++ scriptAux (dropUntil c xs) (dropUntil c ys) cs

/-- The edit script between two line sequences. -/
def diffScript (xs ys : List String) : List Step :=
  scriptAux xs ys (lcs xs ys)

/-- Annotate each step with the number of A-lines and B-lines consumed
before it. -/
def annotate (i j : Nat) : List Step → List (Nat × Nat × Step)
  | [] => []
  | s :: rest =>
    (i, j, s) ::
      (match s with
       | .keep _ => annotate (i + 1) (j + 1) rest
       | .del _ => annotate (i + 1) j rest
       | .ins _ => annotate i (j + 1) rest)

/-- Positions (indices into the script) of the changed steps. -/
def changeIdxs (steps : List Step) : List Nat :=
  (steps.enum.filter (fun p => p.2.isChange)).map (fun p => p.1)

/-- Group change positions: two changes separated by more than `2 * n`
unchanged lines start separate hunks (difflib's grouped-opcode rule). -/
def groupPosAux (n : Nat) (acc : List Nat) (last : Nat) :
    List Nat → List (List Nat)
  | [] => [acc.reverse]
  | q :: qs =>
    if q - last - 1 > 2 * n then acc.reverse :: groupPosAux n [q] q qs
    else groupPosAux n (q :: acc) q qs

/-- Group all change positions. -/
def groupPos (n : Nat) : List Nat → List (List Nat)
  | [] => []
  | p :: ps => groupPosAux n [p] p ps

/-- Does this step consume a line of A? -/
def Step.inA : Step → Bool
  | .keep _ => true
  | .del _ => true
  | .ins _ => false

/-- Does this step consume a line of B? -/
def Step.inB : Step → Bool
  | .keep _ => true
  | .del _ => false
  | .ins _ => true

/-- Render one step with its unified-diff tag character. -/
def Step.render : Step → String
  | .keep s => " " ++ s
  | .del s => "-" ++ s
  | .ins s => "+" ++ s

/-- Render one hunk (a contiguous slice of the annotated script):
`@@ -aStart,aLen +bStart,bLen @@` followed by the tagged lines. -/
def renderHunk (slice : List (Nat × Nat × Step)) : String :=
  match slice with
  | [] => ""
  | (i, j, _) :: _ =>
    let steps := slice.map (fun p => p.2.2)
    let aLen := (steps.filter Step.inA).length
    let bLen := (steps.filter Step.inB).length
    "@@ -" ++ toString (i + 1) ++ "," ++ toString aLen
      ++ " +" ++ toString (j + 1) ++ "," ++ toString bLen ++ " @@\n"
      ++ String.join (steps.map Step.render)

/-- Render all hunks of the script, with `n` context lines around each
group of changes. -/
def renderHunks (n : Nat) (steps : List Step) : String :=
  let ann := annotate 0 0 steps
  let groups := groupPos n (changeIdxs steps)
  String.join (groups.map (fun g =>
    match g with
    | [] => ""
    | f :: _ =>
      let l := g.getLastD f
      let start := f - n
      let stop := min (steps.length - 1) (l + n)
      renderHunk ((ann.drop start).take (stop + 1 - start))))

/-- Model of `difflib.GetUnifiedDiffString`: empty output when the two line
sequences are equal, otherwise the two file headers and the context-bounded
hunks. -/
def GetUnifiedDiffString (ud : UnifiedDiff) : String :=
  if ud.A = ud.B then ""
  else
    "--- " ++ ud.FromFile ++ "\n" ++ "+++ " ++ ud.ToFile ++ "\n"
      ++ renderHunks ud.Context (diffScript ud.A ud.B)

/-! ## Package main: resourceCache, diffObjects, watcher

The cache's observable content is modelled as an association list from the
cache key to the stored object value; `DeepCopy` on storing and on reading
means stored entries are values isolated from callers, which the pure model
renders as plain value semantics (the pointer-level isolation itself is
proved separately on the heap model below). -/

/-- `resourceCache.objectKey`: `fmt.Sprintf("%s/%s", ns, name)`. -/
def rcObjectKey (u : Unstructured) : String :=
  u.nspace ++ "/" ++ u.name

/-- The observable content of a `resourceCache`: the Go map
`map[string]*unstructured.Unstructured`, taken extensionally. -/
def Cache := String → Option Unstructured

/-- The empty cache (`newResourceCache`). -/
def Cache.empty : Cache := fun _ => none

/-- Map read. -/
def Cache.lookup (c : Cache) (key : String) : Option Unstructured :=
  c key

/-- Map assignment (insert or overwrite). -/
def Cache.insert (key : String) (v : Unstructured) (c : Cache) : Cache :=
  fun k => if k = key then some v else c k

/-- Go `delete` (a no-op when the key is absent). -/
def Cache.erase (key : String) (c : Cache) : Cache :=
  fun k => if k = key then none else c k

/-- `resourceCache.Get`: look the object's key up; `nil` when absent,
otherwise a deep copy of the stored object. -/
def Cache.get (c : Cache) (obj : Unstructured) : Option Unstructured :=
  Cache.lookup c (rcObjectKey obj)

/-- `resourceCache.Set`: store a deep copy of the object under its key. -/
def Cache.set (c : Cache) (obj : Unstructured) : Cache :=
  Cache.insert (rcObjectKey obj) obj c

/-- `resourceCache.Delete`: remove the object's key. -/
def Cache.delete (c : Cache) (obj : Unstructured) : Cache :=
  Cache.erase (rcObjectKey obj) c

/-- `diffObjects`'s `difflib.UnifiedDiff` value: the YAML encodings of the
two (possibly nil) objects split into lines, titles `Previous`/`Current`,
and a hard-coded `Context` of 3. -/
def diffObjectsUD (a b : Option Unstructured) : UnifiedDiff :=
  { A := SplitLines (yamlMarshalOpt a)
    B := SplitLines (yamlMarshalOpt b)
    FromFile := "Previous"
    ToFile := "Current"
    Context := 3 }

/-- `diffObjects`: the unified-diff string of the two objects. -/
def diffObjects (a b : Option Unstructured) : String :=
  GetUnifiedDiffString (diffObjectsUD a b)

/-- The three event kinds the watcher's switch handles
(`watch.Added` / `watch.Modified` / `watch.Deleted`). -/
inductive EventType where
  | added
  | modified
  | deleted
deriving DecidableEq

/-- One notification from the watch stream. -/
structure WatchEvent where
  type : EventType
  object : Unstructured

/-- Model of `strings.TrimSpace`: remove leading and trailing whitespace. -/
def trimSpace (s : String) : String :=
  String.mk (((s.data.dropWhile Char.isWhitespace).reverse.dropWhile
    Char.isWhitespace).reverse)

/-- `metaObject.SetManagedFields(nil)` when `hideManagedFields` is set
(applied to the event object before any further processing). -/
def stripManaged (hide : Bool) (u : Unstructured) : Unstructured :=
  if hide then { u with managedFields := none } else u

/-- The display key computed in `watcher`: the name, prefixed by
`namespace/` when the namespace is nonempty. -/
def displayKey (u : Unstructured) : String :=
  if u.nspace = "" then u.name else u.nspace ++ "/" ++ u.name

/-- The 45-dash horizontal rule ending every block header. -/
def dashRule : String := String.mk (List.replicate 45 '-')

/-- A block header line: `--- <ACTION> --- <key> ---------...---` and a
newline, the shared format of the three `fmt.Printf` header strings. -/
def headerLine (action key : String) : String :=
  "--- " ++ action ++ " --- " ++ key ++ " " ++ dashRule ++ "\n"

/-- Does the text end with a blank line, i.e. was the block followed by the
blank-line separator that `fmt.Printf("%s\n\n", ...)` appends? -/
def endsWithBlankLine (s : String) : Bool :=
  match s.data.reverse with
  | '\n' :: '\n' :: _ => true
  | _ => false

/-- The action label printed for each event kind. -/
def actionLabel : EventType → String
  | .added => "CREATE"
  | .modified => "UPDATE"
  | .deleted => "DELETE"

/-- One iteration of `watcher`'s event loop: strip managed fields when
configured, then dispatch on the event kind; returns the updated cache and
the text printed to standard output for this event. -/
def watcherStep (hide : Bool) (cache : Cache) (event : WatchEvent) :
    Cache × String :=
  let metaObject := stripManaged hide event.object
  let key := displayKey metaObject
  match event.type with
  | .added =>
    let encoded := yamlMarshalOpt (some metaObject)
    (cache.set metaObject,
     headerLine "CREATE" key ++ trimSpace encoded ++ "\n\n")
  | .modified =>
    let previousObject := cache.get metaObject
    (cache.set metaObject,
     headerLine "UPDATE" key
       ++ trimSpace (diffObjects previousObject (some metaObject)) ++ "\n\n")
  | .deleted =>
    (cache.delete metaObject, headerLine "DELETE" key)

/-- `watcher`: consume a whole event stream starting from the empty cache,
concatenating the printed output. -/
def watcherRunFrom (hide : Bool) (start : Cache × String)
    (events : List WatchEvent) : Cache × String :=
  events.foldl
    (fun acc e =>
      let r := watcherStep hide acc.1 e
      (r.1, acc.2 ++ r.2))
    start

/-- `watcher` from a fresh cache (`newResourceCache`). -/
def watcherRun (hide : Bool) (events : List WatchEvent) : Cache × String :=
  watcherRunFrom hide (Cache.empty, "") events

/-! ## The diff package: Differ.preprocess and Differ.PrintDiff -/

/-- Modelled from the spec: a compiled subtree-exclusion path expression
(pkg/maputil and the compiled expression type are not in the sources); a
path is the list of map keys leading to the subtree to remove. -/
abbrev ExcludePath := List String

/-- Modelled from the spec: the diff package's `Options` (its options.go is
not in the sources), carrying the recognized configuration: `contextLines`,
one color theme per event kind, the optional compiled sub-document selector
(`compiledJSONPath`, evaluated like `jsonpath.FindResults`: an error, or a
list of result lists), and the compiled subtree-exclusion paths. -/
structure Options where
  ContextLines : Nat
  CreateColorTheme : String
  UpdateColorTheme : String
  DeleteColorTheme : String
  compiledJSONPath : Option (Doc → Except String (List (List Doc)))
  parsedExcludePaths : List ExcludePath

/-- `json.Unmarshal` into `map[string]interface{}`: succeeds exactly when
the value is a JSON object. -/
def decodeObj : Doc → Option (List (String × Doc))
  | .obj fs => some fs
  | _ => none

/-- Modelled from the spec: `maputil.RemovePath` (pkg/maputil is not in the
sources).  Removes the subtree addressed by the path from the map; a path
addressing a non-existent location is a no-op, not an error; an empty path
addresses no subtree at all, on which the removal mechanism itself fails
with a configuration error. -/
def RemovePath (fs : List (String × Doc)) :
    List String → Except String (List (String × Doc))
  | [] => .error "empty exclude path"
  | [k] => .ok (eraseField k fs)
  | k :: rest =>
    match lookupField k fs with
    | some (.obj inner) =>
      match RemovePath inner rest with
      | .error e => .error e
      | .ok inner' => .ok (setField k (.obj inner') fs)
    | _ => .ok fs
where
  /-- Field lookup in a generic map. -/
  lookupField (k : String) : List (String × Doc) → Option Doc
    | [] => none
    | (l, v) :: gs => if l = k then some v else lookupField k gs
  /-- Field removal in a generic map (no-op when absent). -/
  eraseField (k : String) : List (String × Doc) → List (String × Doc)
    | [] => []
    | (l, v) :: gs => if l = k then gs else (l, v) :: eraseField k gs
  /-- Field replacement in a generic map. -/
  setField (k : String) (v : Doc) : List (String × Doc) → List (String × Doc)
    | [] => []
    | (l, w) :: gs => if l = k then (l, v) :: gs else (l, w) :: setField k v gs

/-- The sub-document selector stage of `Differ.preprocess`: when a compiled
JSON path is configured, evaluate it; on evaluation failure log a warning
and keep the unfiltered document; when it yields at least one result,
re-encode the first result and re-decode it into a generic map (a fatal
error when that result is not an object); otherwise keep the document. -/
def applySelector (opt : Options) (g : List (String × Doc)) :
    Except String (List (String × Doc)) :=
  match opt.compiledJSONPath with
  | none => .ok g
  | some sel =>
    match sel (.obj g) with
    | .error _ => .ok g
    | .ok results =>
      match results with
      | (x :: _) :: _ =>
        match decodeObj x.normalize with
        | none => .error "failed to re-decode JSON path result from JSON"
        | some g' => .ok g'
      | _ => .ok g

/-- The exclusion stage of `Differ.preprocess`: remove each configured
exclude path in turn; any failure of the removal mechanism fails the whole
operation. -/
def applyExcludes (paths : List ExcludePath) (g : List (String × Doc)) :
    Except String (List (String × Doc)) :=
  match paths with
  | [] => .ok g
  | p :: rest =>
    match RemovePath g p with
    | .error e => .error ("failed to apply exclude expression: " ++ e)
    | .ok g' => applyExcludes rest g'

/-- `Differ.preprocess`: nil input yields empty text with no error;
otherwise the object is re-encoded through the generic JSON representation
(`Doc.normalize` plus `decodeObj`), optionally narrowed by the selector,
optionally pruned of excluded subtrees, and serialized as YAML. -/
def preprocess (opt : Options) : Option Doc → Except String String
  | none => .ok ""
  | some o =>
    match decodeObj o.normalize with
    | none => .error "failed to re-decode object from JSON"
    | some g =>
      match applySelector opt g with
      | .error e => .error e
      | .ok g2 =>
        match applyExcludes opt.parsedExcludePaths g2 with
        | .error e => .error e
        | .ok g3 => .ok (yamlMarshalDoc (.obj g3))

/-- `objectKey` of the diff package (same computation as the watcher's
display key). -/
def diffObjectKey (u : Unstructured) : String :=
  if u.nspace = "" then u.name else u.nspace ++ "/" ++ u.name

/-- `diffTitle`: `(none)` for a nil object, otherwise
`<kind> <key> v<timestamp> (<resourceVersion>) (gen. <generation>)`; the
timestamp (a formatted `time.Time`) is passed in already rendered. -/
def diffTitle (obj : Option Unstructured) (lastSeen : String) : String :=
  match obj with
  | none => "(none)"
  | some u =>
    u.kind ++ " " ++ diffObjectKey u ++ " v" ++ lastSeen ++ " ("
      ++ u.resourceVersion ++ ") (gen. " ++ toString u.generation ++ ")"

/-- The arguments `Differ.PrintDiff` hands to the external word-by-word
diff renderer (`cdiff.Diff(...).UnifiedWithGooKitColor`). -/
structure RenderCall where
  titleA : String
  titleB : String
  contextLines : Nat
  theme : String
  oldText : String
  newText : String

/-- `Differ.PrintDiff`: preprocess both sides (either failure aborts this
event), build the two titles, select the color theme — update by default,
create when the old side is nil, delete when the new side is nil — and
render with the configured number of context lines.  The model returns the
render call instead of printing. -/
def printDiffCall (opt : Options) (oldObj newObj : Option Unstructured)
    (lastSeen now : String) : Except String RenderCall :=
  match preprocess opt (oldObj.map toDoc) with
  | .error e => .error ("failed to process previous object: " ++ e)
  | .ok oldString =>
    match preprocess opt (newObj.map toDoc) with
    | .error e => .error ("failed to process current object: " ++ e)
    | .ok newString =>
      let titleA := diffTitle oldObj lastSeen
      let titleB := diffTitle newObj now
      let t1 := opt.UpdateColorTheme
      let t2 := if oldObj.isNone then opt.CreateColorTheme else t1
      let t3 := if newObj.isNone then opt.DeleteColorTheme else t2
      .ok { titleA := titleA, titleB := titleB,
            contextLines := opt.ContextLines, theme := t3,
            oldText := oldString, newText := newString }

/-! ## Heap model of resourceCache

The pure `Cache` above captures the cache's observable content; the claims
about `DeepCopy` isolation are about pointers, so here the same three
operations are modelled over an explicit heap: objects live in heap cells
addressed by index, the cache maps keys to cell addresses, `DeepCopy`
allocates a fresh cell holding the same value, and mutating an object is
an in-place write to its cell. -/

/-- A resourceCache together with the heap its pointers live in: `heap` is
the list of allocated cells (a pointer is an index), `resources` is the
Go map from object key to the stored object's pointer. -/
structure RCState where
  heap : List Unstructured
  resources : String → Option Nat

/-- Insert-or-replace in the resources map. -/
def ptrInsert (key : String) (p : Nat) (m : String → Option Nat) :
    String → Option Nat :=
  fun k => if k = key then some p else m k

/-- Dereference a pointer. -/
def readPtr (s : RCState) (p : Nat) : Option Unstructured :=
  s.heap[p]?

/-- In-place mutation of the object a pointer refers to (what a caller can
do with any `*unstructured.Unstructured` it holds). -/
def mutatePtr (s : RCState) (p : Nat) (v : Unstructured) : RCState :=
  { s with heap := s.heap.set p v }

/-- `obj.DeepCopy()`: allocate a fresh cell with the same value and return
its pointer. -/
def deepCopy (s : RCState) (v : Unstructured) : RCState × Nat :=
  ({ s with heap := s.heap ++ [v] }, s.heap.length)

/-- `resourceCache.Get` on the heap model: look up the object's key; when
present, return a pointer to a deep copy of the stored object. -/
def rcGet (s : RCState) (p : Nat) : RCState × Option Nat :=
  match readPtr s p with
  | none => (s, none)
  | some obj =>
    match s.resources (rcObjectKey obj) with
    | none => (s, none)
    | some q =>
      match readPtr s q with
      | none => (s, none)
      | some v =>
        let r := deepCopy s v
        (r.1, some r.2)

/-- `resourceCache.Set` on the heap model: store a pointer to a deep copy
of the argument object under its key. -/
def rcSet (s : RCState) (p : Nat) : RCState :=
  match readPtr s p with
  | none => s
  | some obj =>
    let r := deepCopy s obj
    { r.1 with resources := ptrInsert (rcObjectKey obj) r.2 s.resources }

/-! ## Concrete sample objects used by witnesses and counterexamples -/

/-- A sample managed-fields subtree. -/
def mfDoc : Doc := Doc.obj [("manager", Doc.str "kubectl")]

/-- A sample namespaced object, first revision. -/
def nginx1 : Unstructured :=
  { kind := "Pod", name := "nginx", nspace := "default",
    resourceVersion := "101", generation := 1,
    managedFields := some mfDoc,
    body := [("spec", Doc.obj [("app", Doc.str "nginx"),
                               ("replicas", Doc.num 1)])] }

/-- The same object, second revision. -/
def nginx2 : Unstructured :=
  { kind := "Pod", name := "nginx", nspace := "default",
    resourceVersion := "102", generation := 2,
    managedFields := some mfDoc,
    body := [("spec", Doc.obj [("app", Doc.str "nginx-v2"),
                               ("replicas", Doc.num 2)])] }

/-- A cache already holding the stripped first revision under
`default/nginx`. -/
def cacheW : Cache :=
  Cache.insert "default/nginx" (stripManaged true nginx1) Cache.empty

/-- Sample options with a five-line diff context window. -/
def optW : Options :=
  { ContextLines := 5, CreateColorTheme := "create-theme",
    UpdateColorTheme := "update-theme", DeleteColorTheme := "delete-theme",
    compiledJSONPath := none, parsedExcludePaths := [] }

/-- A sample object wide enough for the context window to matter. -/
def wideA : Unstructured :=
  { kind := "Pod", name := "nginx", nspace := "default",
    resourceVersion := "7", generation := 3, managedFields := none,
    body := [("f1", Doc.num 1), ("f2", Doc.num 2), ("f3", Doc.num 3),
             ("f4", Doc.num 4), ("f5", Doc.num 50), ("f6", Doc.num 6),
             ("f7", Doc.num 7), ("f8", Doc.num 8), ("f9", Doc.num 9)] }

/-- The same wide object with one changed field in the middle. -/
def wideB : Unstructured :=
  { kind := "Pod", name := "nginx", nspace := "default",
    resourceVersion := "7", generation := 3, managedFields := none,
    body := [("f1", Doc.num 1), ("f2", Doc.num 2), ("f3", Doc.num 3),
             ("f4", Doc.num 4), ("f5", Doc.num 51), ("f6", Doc.num 6),
             ("f7", Doc.num 7), ("f8", Doc.num 8), ("f9", Doc.num 9)] }

/-- A cache holding the wide object. -/
def cacheWide : Cache :=
  Cache.insert "default/nginx" (stripManaged true wideA) Cache.empty

/-- The render call produced at a concrete update. -/
def rcSample : RenderCall :=
  { titleA := "Pod default/nginx vt1 (101) (gen. 1)"
    titleB := "Pod default/nginx vt2 (102) (gen. 2)"
    contextLines := 5
    theme := "update-theme"
    oldText := "kind: Pod\nmetadata:\n  generation: 1\n  managedFields:\n    manager: kubectl\n  name: nginx\n  namespace: default\n  resourceVersion: 101\nspec:\n  app: nginx\n  replicas: 1\n"
    newText := "kind: Pod\nmetadata:\n  generation: 2\n  managedFields:\n    manager: kubectl\n  name: nginx\n  namespace: default\n  resourceVersion: 102\nspec:\n  app: nginx-v2\n  replicas: 2\n" }

/-- Options whose selector always fails to evaluate. -/
def optSelFail : Options :=
  { ContextLines := 3, CreateColorTheme := "c", UpdateColorTheme := "u",
    DeleteColorTheme := "d",
    compiledJSONPath := some (fun _ => .error "boom"),
    parsedExcludePaths := [] }

/-- `optSelFail` with the selector removed. -/
def optSelFailNone : Options :=
  { optSelFail with compiledJSONPath := none }

/-- Options with an exclude path on which the removal mechanism fails. -/
def optBadExclude : Options :=
  { ContextLines := 3, CreateColorTheme := "c", UpdateColorTheme := "u",
    DeleteColorTheme := "d", compiledJSONPath := none,
    parsedExcludePaths := [[]] }

/-- Two field orderings of one document. -/
def docBA : Doc := Doc.obj [("b", Doc.num 1), ("a", Doc.str "x")]

/-- The same document with the fields in the other order. -/
def docAB : Doc := Doc.obj [("a", Doc.str "x"), ("b", Doc.num 1)]

/-- A one-object heap state whose cache maps `default/nginx` to cell 0. -/
def rcS0 : RCState :=
  { heap := [nginx1],
    resources := fun k => if k = "default/nginx" then some 0 else none }

/-- A one-object heap state with an empty cache. -/
def rcSEmpty : RCState :=
  { heap := [nginx1], resources := fun _ => none }

/-- `rcS0` right after a `Get` allocated the copy in cell 1. -/
def rcS0after : RCState :=
  { heap := [nginx1, nginx1], resources := rcS0.resources }

/-! ## Claim theorems -/

/-- C1: on an UPDATE event the previous side handed to the diff is the
result of looking the object's key up in the cache (absent when the key was
never seen), the current document is written into the cache replacing any
prior value and leaving other keys untouched, and an UPDATE with no cache
entry is still processed, with previous = absent. -/
theorem c1_update_previous_is_cache_lookup
    (hide : Bool) (c : Cache) (e : WatchEvent) (het : e.type = .modified) :
    Cache.lookup (watcherStep hide c e).1
        (rcObjectKey (stripManaged hide e.object))
      = some (stripManaged hide e.object)
    ∧ (∀ k, k ≠ rcObjectKey (stripManaged hide e.object) →
        Cache.lookup (watcherStep hide c e).1 k = Cache.lookup c k)
    ∧ (watcherStep hide c e).2 =
        headerLine "UPDATE" (displayKey (stripManaged hide e.object))
          ++ trimSpace (diffObjects
                (Cache.lookup c (rcObjectKey (stripManaged hide e.object)))
                (some (stripManaged hide e.object)))
          ++ "\n\n"
    ∧ (Cache.lookup c (rcObjectKey (stripManaged hide e.object)) = none →
        (watcherStep hide c e).2 =
          headerLine "UPDATE" (displayKey (stripManaged hide e.object))
            ++ trimSpace (diffObjects none (some (stripManaged hide e.object)))
            ++ "\n\n") := by
  obtain ⟨t, obj⟩ := e
  cases het
  refine ⟨?_, ?_, rfl, ?_⟩
  · simp [watcherStep, Cache.set, Cache.insert, Cache.lookup]
  · intro k hk
    simp [watcherStep, Cache.set, Cache.insert, Cache.lookup, hk]
  · intro h
    have h' : Cache.get c (stripManaged hide obj) = none := h
    simp [watcherStep, h']

/-- Witness for C1 at a concrete cached object and a concrete update. -/
theorem c1_witness :
    Cache.lookup (watcherStep true cacheW ⟨.modified, nginx2⟩).1
        "default/nginx"
      = some (stripManaged true nginx2)
    ∧ (watcherStep true cacheW ⟨.modified, nginx2⟩).2 =
        headerLine "UPDATE" "default/nginx"
          ++ trimSpace (diffObjects (some (stripManaged true nginx1))
                (some (stripManaged true nginx2))) ++ "\n\n" := by
  have h := c1_update_previous_is_cache_lookup true cacheW ⟨.modified, nginx2⟩ rfl
  exact ⟨h.1, h.2.2.1⟩

/-- C2 counterexample: a CREATE for an identity already cached is emitted
exactly as a CREATE with an empty cache would be — the full current
document — and that emission differs from the one that would use the cached
value as the previous side; the cache's existing value is not used. -/
theorem c2_counterexample :
    (watcherStep true cacheW ⟨.added, nginx2⟩).2
      = (watcherStep true Cache.empty ⟨.added, nginx2⟩).2
    ∧ (watcherStep true cacheW ⟨.added, nginx2⟩).2
      ≠ headerLine "CREATE" "default/nginx"
          ++ trimSpace (diffObjects (some (stripManaged true nginx1))
                (some (stripManaged true nginx2))) ++ "\n\n" := by
  refine ⟨rfl, ?_⟩
  decide

/-- C2 amended: on every CREATE event the emitted block is the header plus
the full canonical rendering of the current document — independent of any
existing cache entry, which is never read — while the current document is
written into the cache. -/
theorem c2_create_emits_full_document
    (hide : Bool) (c c' : Cache) (e : WatchEvent) (het : e.type = .added) :
    (watcherStep hide c e).2 = (watcherStep hide c' e).2
    ∧ (watcherStep hide c e).2 =
        headerLine "CREATE" (displayKey (stripManaged hide e.object))
          ++ trimSpace (yamlMarshalOpt (some (stripManaged hide e.object)))
          ++ "\n\n"
    ∧ Cache.lookup (watcherStep hide c e).1
        (rcObjectKey (stripManaged hide e.object))
      = some (stripManaged hide e.object)
    ∧ (∀ k, k ≠ rcObjectKey (stripManaged hide e.object) →
        Cache.lookup (watcherStep hide c e).1 k = Cache.lookup c k) := by
  obtain ⟨t, obj⟩ := e
  cases het
  refine ⟨rfl, rfl, ?_, ?_⟩
  · simp [watcherStep, Cache.set, Cache.insert, Cache.lookup]
  · intro k hk
    simp [watcherStep, Cache.set, Cache.insert, Cache.lookup, hk]

/-- Witness for the amended C2 at a concrete duplicate CREATE. -/
theorem c2_witness :
    (watcherStep true cacheW ⟨.added, nginx2⟩).2 =
      headerLine "CREATE" "default/nginx"
        ++ trimSpace (yamlMarshalOpt (some (stripManaged true nginx2))) ++ "\n\n"
    ∧ Cache.lookup (watcherStep true cacheW ⟨.added, nginx2⟩).1
        "default/nginx" = some (stripManaged true nginx2) := by
  have h := c2_create_emits_full_document true cacheW Cache.empty
    ⟨.added, nginx2⟩ rfl
  exact ⟨h.2.1, h.2.2.1⟩

/-- C3: on a DELETE event the object's key is removed from the cache (other
keys untouched, and a no-op when the key is absent) and the emitted block is
exactly the header line naming the action and identity, with no body. -/
theorem c3_delete_removes_and_prints_header_only
    (hide : Bool) (c : Cache) (e : WatchEvent) (het : e.type = .deleted) :
    (watcherStep hide c e).2 =
        headerLine "DELETE" (displayKey (stripManaged hide e.object))
    ∧ Cache.lookup (watcherStep hide c e).1
        (rcObjectKey (stripManaged hide e.object)) = none
    ∧ (∀ k, k ≠ rcObjectKey (stripManaged hide e.object) →
        Cache.lookup (watcherStep hide c e).1 k = Cache.lookup c k)
    ∧ (Cache.lookup c (rcObjectKey (stripManaged hide e.object)) = none →
        ∀ k, Cache.lookup (watcherStep hide c e).1 k = Cache.lookup c k) := by
  obtain ⟨t, obj⟩ := e
  cases het
  refine ⟨rfl, ?_, ?_, ?_⟩
  · simp [watcherStep, Cache.delete, Cache.erase, Cache.lookup]
  · intro k hk
    simp [watcherStep, Cache.delete, Cache.erase, Cache.lookup, hk]
  · intro h k
    by_cases hk : k = rcObjectKey (stripManaged hide obj)
    · subst hk
      simp only [watcherStep, Cache.delete, Cache.erase, Cache.lookup,
        if_pos rfl]
      exact h.symm
    · simp [watcherStep, Cache.delete, Cache.erase, Cache.lookup, hk]

/-- Witness for C3 at a concrete cached object and a concrete delete. -/
theorem c3_witness :
    (watcherStep true cacheW ⟨.deleted, nginx2⟩).2 =
        headerLine "DELETE" "default/nginx"
    ∧ Cache.lookup (watcherStep true cacheW ⟨.deleted, nginx2⟩).1
        "default/nginx" = none := by
  have h := c3_delete_removes_and_prints_header_only true cacheW
    ⟨.deleted, nginx2⟩ rfl
  exact ⟨h.1, h.2.1⟩

/-- C4 counterexample: the DELETE block is not followed by a blank-line
separator (it is the bare header line), while the CREATE block is — the
three event kinds are not treated identically. -/
theorem c4_counterexample :
    endsWithBlankLine (watcherStep true Cache.empty ⟨.deleted, nginx2⟩).2
      = false
    ∧ (watcherStep true Cache.empty ⟨.deleted, nginx2⟩).2
      = headerLine "DELETE" "default/nginx"
    ∧ endsWithBlankLine (watcherStep true Cache.empty ⟨.added, nginx1⟩).2
      = true := by
  refine ⟨by decide, rfl, by decide⟩

/-- C4 amended: every emitted block starts with the shared header format
(action label, identity, horizontal rule); CREATE and UPDATE blocks are
followed by a blank-line separator, while DELETE emits the header line
only, with no separator. -/
theorem c4_blocks_share_header_format
    (hide : Bool) (c : Cache) (e : WatchEvent) :
    (∃ rest, (watcherStep hide c e).2 =
        headerLine (actionLabel e.type)
          (displayKey (stripManaged hide e.object)) ++ rest)
    ∧ (e.type = .deleted → (watcherStep hide c e).2 =
        headerLine "DELETE" (displayKey (stripManaged hide e.object)))
    ∧ (e.type ≠ .deleted → ∃ body, (watcherStep hide c e).2 =
        headerLine (actionLabel e.type)
            (displayKey (stripManaged hide e.object))
          ++ body ++ "\n\n") := by
  obtain ⟨t, obj⟩ := e
  cases t
  · exact ⟨⟨_, String.append_assoc _ _ _⟩,
      fun h => EventType.noConfusion h, fun _ => ⟨_, rfl⟩⟩
  · exact ⟨⟨_, String.append_assoc _ _ _⟩,
      fun h => EventType.noConfusion h, fun _ => ⟨_, rfl⟩⟩
  · exact ⟨⟨"", (String.append_empty _).symm⟩, fun _ => rfl,
      fun h => absurd rfl h⟩

/-- C5 counterexample: with `contextLines` configured to 5, the watcher's
rendered UPDATE diff is still the 3-context rendering — `diffObjects`
hard-codes `Context: 3` — and that rendering differs from the 5-context
one, so the emitted diff is not bounded by the configured value. -/
theorem c5_counterexample :
    (watcherStep true cacheWide ⟨.modified, wideB⟩).2
      = headerLine "UPDATE" "default/nginx"
        ++ trimSpace (GetUnifiedDiffString
            (diffObjectsUD (some (stripManaged true wideA))
              (some (stripManaged true wideB)))) ++ "\n\n"
    ∧ (diffObjectsUD (some (stripManaged true wideA))
        (some (stripManaged true wideB))).Context = 3
    ∧ optW.ContextLines = 5
    ∧ GetUnifiedDiffString
        (diffObjectsUD (some (stripManaged true wideA))
          (some (stripManaged true wideB)))
      ≠ GetUnifiedDiffString
          { diffObjectsUD (some (stripManaged true wideA))
              (some (stripManaged true wideB)) with
            Context := optW.ContextLines } := by
  refine ⟨rfl, rfl, rfl, ?_⟩
  decide

/-- C5 amended: the watcher's UPDATE diff (`diffObjects`) is always rendered
with a fixed context of 3 lines, independent of configuration; the diff
package's renderer (`Differ.PrintDiff`) is the one bounded by the
configured `contextLines`, and it selects the update color theme whenever
both sides are present. -/
theorem c5_update_diff_context
    : (∀ a b, (diffObjectsUD a b).Context = 3)
    ∧ (∀ (opt : Options) (oldObj newObj : Option Unstructured)
        (lastSeen now : String) (rc : RenderCall),
        printDiffCall opt oldObj newObj lastSeen now = .ok rc →
        rc.contextLines = opt.ContextLines
        ∧ (oldObj.isSome = true → newObj.isSome = true →
            rc.theme = opt.UpdateColorTheme)) := by
  refine ⟨fun a b => rfl, ?_⟩
  intro opt oldObj newObj lastSeen now rc h
  unfold printDiffCall at h
  cases hold : preprocess opt (oldObj.map toDoc) with
  | error e => rw [hold] at h; exact absurd h (by simp)
  | ok oldString =>
    rw [hold] at h
    cases hnew : preprocess opt (newObj.map toDoc) with
    | error e => rw [hnew] at h; exact absurd h (by simp)
    | ok newString =>
      rw [hnew] at h
      simp only [Except.ok.injEq] at h
      subst h
      refine ⟨rfl, ?_⟩
      intro h1 h2
      cases oldObj with
      | none => exact absurd h1 (by simp)
      | some o =>
        cases newObj with
        | none => exact absurd h2 (by simp)
        | some n => rfl

/-- Witness for the amended C5 at a concrete render call. -/
theorem c5_witness :
    (diffObjectsUD (some nginx1) (some nginx2)).Context = 3
    ∧ printDiffCall optW (some nginx1) (some nginx2) "t1" "t2" = .ok rcSample
    ∧ rcSample.contextLines = optW.ContextLines
    ∧ rcSample.theme = optW.UpdateColorTheme := by
  have h := c5_update_diff_context
  have hc := h.2 optW (some nginx1) (some nginx2) "t1" "t2" rcSample rfl
  exact ⟨h.1 (some nginx1) (some nginx2), rfl, hc.1, hc.2 rfl rfl⟩

/-- C6: the transform pipeline on an absent document returns empty text and
no error. -/
theorem c6_preprocess_absent_ok (opt : Options) :
    preprocess opt none = Except.ok "" := rfl

/-- Helper: an empty exclude path anywhere in the configured list makes the
exclusion stage fail. -/
theorem applyExcludes_nil_mem_error (paths : List ExcludePath) :
    ∀ (g : List (String × Doc)), [] ∈ paths →
      ∃ e, applyExcludes paths g = .error e := by
  induction paths with
  | nil => intro g h; exact absurd h (by simp)
  | cons p rest ih =>
    intro g h
    cases hp : RemovePath g p with
    | error e =>
      exact ⟨"failed to apply exclude expression: " ++ e,
        by simp [applyExcludes, hp]⟩
    | ok g' =>
      rcases List.mem_cons.mp h with h1 | h2
      · subst h1
        exact absurd hp (by simp [RemovePath])
      · obtain ⟨e, he⟩ := ih g' h2
        exact ⟨e, by simp [applyExcludes, hp, he]⟩

/-- C7: a failing sub-document selector is non-fatal — the transform
proceeds exactly as if no selector were configured — while a failure of the
subtree-removal mechanism (here: an empty exclude path, on which removal
always fails) makes the whole transform of the event fail with an error. -/
theorem c7_selector_nonfatal_exclude_fatal :
    (∀ (opt : Options) (sel : Doc → Except String (List (List Doc)))
       (o : Doc) (msg : String) (g : List (String × Doc)),
       opt.compiledJSONPath = some sel →
       decodeObj o.normalize = some g →
       sel (.obj g) = .error msg →
       preprocess opt (some o) =
         preprocess { opt with compiledJSONPath := none } (some o))
    ∧ (∀ (opt : Options) (o : Doc),
        [] ∈ opt.parsedExcludePaths →
        ∃ e, preprocess opt (some o) = .error e) := by
  constructor
  · intro opt sel o msg g h1 h2 h3
    simp [preprocess, applySelector, h1, h2, h3]
  · intro opt o hmem
    cases hdec : decodeObj o.normalize with
    | none =>
      exact ⟨"failed to re-decode object from JSON", by simp [preprocess, hdec]⟩
    | some g =>
      cases hsel : applySelector opt g with
      | error e => exact ⟨e, by simp [preprocess, hdec, hsel]⟩
      | ok g2 =>
        obtain ⟨e, he⟩ := applyExcludes_nil_mem_error opt.parsedExcludePaths
          g2 hmem
        exact ⟨e, by simp [preprocess, hdec, hsel, he]⟩

/-- Witness for C7 at a concrete document and concrete options. -/
theorem c7_witness :
    preprocess optSelFail (some (toDoc nginx1))
      = preprocess optSelFailNone (some (toDoc nginx1))
    ∧ (preprocess optBadExclude (some (toDoc nginx1))).isOk = false := by
  have h := c7_selector_nonfatal_exclude_fatal
  obtain ⟨e, he⟩ := h.2 optBadExclude (toDoc nginx1) (by simp [optBadExclude])
  refine ⟨h.1 optSelFail _ (toDoc nginx1) "boom" _ rfl rfl rfl, ?_⟩
  rw [he]
  rfl

/-- C8: the transform pipeline is deterministic on the content of a Raw
Document: two in-memory representations of the same document (equal after
the normalizing re-encode, which erases map ordering) transform to
identical canonical text under the same configuration; in particular
transforming the very same document twice yields identical text. -/
theorem c8_transform_deterministic (opt : Options) (d d' : Doc)
    (h : d.normalize = d'.normalize) :
    preprocess opt (some d) = preprocess opt (some d') := by
  simp only [preprocess]
  rw [h]

/-- Witness for C8 at two concrete orderings of one document. -/
theorem c8_witness :
    preprocess optW (some docBA) = preprocess optW (some docAB) :=
  c8_transform_deterministic optW docBA docAB rfl

/-- Witness for the amended C4 at one event of each kind. -/
theorem c4_witness :
    (watcherStep true Cache.empty ⟨.deleted, nginx1⟩).2 =
        headerLine "DELETE" "default/nginx"
    ∧ (∃ body, (watcherStep true Cache.empty ⟨.added, nginx1⟩).2 =
        headerLine "CREATE" "default/nginx" ++ body ++ "\n\n")
    ∧ (∃ body, (watcherStep true cacheW ⟨.modified, nginx2⟩).2 =
        headerLine "UPDATE" "default/nginx" ++ body ++ "\n\n") := by
  refine ⟨(c4_blocks_share_header_format true Cache.empty
      ⟨.deleted, nginx1⟩).2.1 rfl, ?_, ?_⟩
  · exact (c4_blocks_share_header_format true Cache.empty
      ⟨.added, nginx1⟩).2.2 (fun h => nomatch h)
  · exact (c4_blocks_share_header_format true cacheW
      ⟨.modified, nginx2⟩).2.2 (fun h => nomatch h)

/-- C9: cache reads return isolated copies and never mutate stored state:
mutating the object a successful `Get` returned does not change the stored
object or the cache mapping; mutating an object after passing it to `Set`
does not change the stored copy; and `Get` on an absent identity returns
absent without touching the state. -/
theorem c9_cache_get_isolated_copy :
    (∀ (s : RCState) (p q r : Nat) (obj w v : Unstructured) (s' : RCState),
       readPtr s p = some obj →
       rcGet s p = (s', some q) →
       s.resources (rcObjectKey obj) = some r →
       readPtr s r = some w →
       readPtr (mutatePtr s' q v) r = some w
         ∧ (mutatePtr s' q v).resources (rcObjectKey obj) = some r)
    ∧ (∀ (s : RCState) (p t : Nat) (obj v : Unstructured),
        readPtr s p = some obj →
        (rcSet s p).resources (rcObjectKey obj) = some t →
        readPtr (mutatePtr (rcSet s p) p v) t = some obj)
    ∧ (∀ (s : RCState) (p : Nat) (obj : Unstructured),
        readPtr s p = some obj →
        s.resources (rcObjectKey obj) = none →
        rcGet s p = (s, none)) := by
  refine ⟨?_, ?_, ?_⟩
  · intro s p q r obj w v s' h1 h2 h3 h4
    have hr : r < s.heap.length :=
      (List.getElem?_eq_some.mp (by simpa [readPtr] using h4)).1
    simp only [rcGet, h1, h3, h4, deepCopy] at h2
    injection h2 with hs hq
    injection hq with hq
    subst hs
    subst hq
    constructor
    · simp only [mutatePtr, readPtr]
      rw [List.getElem?_set_ne (by omega : s.heap.length ≠ r),
        List.getElem?_append_left hr]
      simpa [readPtr] using h4
    · simpa [mutatePtr] using h3
  · intro s p t obj v h1 h2
    have hset : rcSet s p =
        { heap := s.heap ++ [obj],
          resources := ptrInsert (rcObjectKey obj) s.heap.length
            s.resources } := by
      simp [rcSet, h1, deepCopy]
    rw [hset] at h2 ⊢
    simp [ptrInsert] at h2
    subst h2
    have hp : p < s.heap.length :=
      (List.getElem?_eq_some.mp (by simpa [readPtr] using h1)).1
    simp only [mutatePtr, readPtr]
    rw [List.getElem?_set_ne (by omega : p ≠ s.heap.length),
      List.getElem?_concat_length]
  · intro s p obj h1 h2
    simp [rcGet, h1, h2]

/-- Witness for C9 at concrete heap states. -/
theorem c9_witness :
    readPtr (mutatePtr rcS0after 1 nginx2) 0 = some nginx1
    ∧ readPtr (mutatePtr (rcSet rcS0 0) 0 nginx2) 1 = some nginx1
    ∧ rcGet rcSEmpty 0 = (rcSEmpty, none) := by
  have h := c9_cache_get_isolated_copy
  refine ⟨(h.1 rcS0 0 1 0 nginx1 nginx1 nginx2 _ rfl rfl rfl rfl).1,
    h.2.1 rcS0 0 1 nginx1 nginx2 rfl rfl, h.2.2 rcSEmpty 0 nginx1 rfl rfl⟩

/-- Helper: with stripping enabled, consuming any further events preserves
the invariant that every cached object has no managed fields. -/
theorem watcherRunFrom_managed_inv (events : List WatchEvent) :
    ∀ (st : Cache × String),
      (∀ k u, Cache.lookup st.1 k = some u → u.managedFields = none) →
      ∀ k u, Cache.lookup (watcherRunFrom true st events).1 k = some u →
        u.managedFields = none := by
  induction events with
  | nil => intro st h k u hl; exact h k u hl
  | cons e rest ih =>
    intro st h
    refine ih _ ?_
    intro k u hl
    obtain ⟨t, obj⟩ := e
    cases t
    case added =>
      by_cases hk : k = rcObjectKey (stripManaged true obj)
      · simp only [watcherStep, Cache.set, Cache.insert, Cache.lookup,
          if_pos hk, Option.some.injEq] at hl
        rw [← hl]
        rfl
      · simp only [watcherStep, Cache.set, Cache.insert, Cache.lookup,
          if_neg hk] at hl
        exact h k u hl
    case modified =>
      by_cases hk : k = rcObjectKey (stripManaged true obj)
      · simp only [watcherStep, Cache.set, Cache.insert, Cache.lookup,
          if_pos hk, Option.some.injEq] at hl
        rw [← hl]
        rfl
      · simp only [watcherStep, Cache.set, Cache.insert, Cache.lookup,
          if_neg hk] at hl
        exact h k u hl
    case deleted =>
      by_cases hk : k = rcObjectKey (stripManaged true obj)
      · simp only [watcherStep, Cache.delete, Cache.erase, Cache.lookup,
          if_pos hk] at hl
        exact Option.noConfusion hl
      · simp only [watcherStep, Cache.delete, Cache.erase, Cache.lookup,
          if_neg hk] at hl
        exact h k u hl

/-- C10: with managed-field stripping enabled, every object a kind's cache
ever stores — after any sequence of events, on every event path — has its
managed-fields metadata removed; since the previous side of a diff is the
cache lookup, it never contains the managed-fields subtree. -/
theorem c10_cache_never_holds_managed_fields
    (events : List WatchEvent) (k : String) (u : Unstructured)
    (h : Cache.lookup (watcherRun true events).1 k = some u) :
    u.managedFields = none :=
  watcherRunFrom_managed_inv events (Cache.empty, "")
    (fun _ _ hc => Option.noConfusion hc) k u h

/-- Witness for C10: an object carrying managed fields is cached stripped. -/
theorem c10_witness :
    Cache.lookup (watcherRun true [⟨.added, nginx1⟩]).1 "default/nginx"
      = some (stripManaged true nginx1)
    ∧ (stripManaged true nginx1).managedFields = none :=
  ⟨rfl, c10_cache_never_holds_managed_fields [⟨.added, nginx1⟩]
    "default/nginx" (stripManaged true nginx1) rfl⟩

end Stalk
